import Mathlib

/-!
Verification development for the TeaPie.Extensions execution-result
correlation engine. The definitions below are a shallow embedding of
the TypeScript sources:
  - StructuredJsonParser.parseStructuredJsonRequests (JSONL attempt-log ingestion)
  - XmlTestParser.parseTestResultsFromXml (test attribution) and
    XmlTestParser.waitForXmlReportUpdate (report stabilization wait)
  - TeaPieExecutor.buildHttpRequestResults / createFailedResult /
    mapConnectionError / parseOutput (result aggregation)
JavaScript machine details are modelled as follows: JS Map becomes an
association list with insertion-order semantics, truthiness tests on
strings become comparisons with the empty string, optional fields become
Option, and file IO becomes explicit input data (FileInput, a stat trace
for the waiter). Numbers that the code only ever treats as nonnegative
integers (HTTP status codes, millisecond durations) are Nat.
-/

namespace TeaPie

/-! ## Data model of the JSONL attempt log (StructuredJsonParser.ts) -/

/-- The Request part of a StructuredLogEntry (fields the code reads). -/
structure RequestData where
  name : String
  method : String
  uri : String
  headers : List (String × String)
  body : Option String
  deriving DecidableEq

/-- The Response part of a StructuredLogEntry (fields the code reads). -/
structure ResponseData where
  statusCode : Nat
  reasonPhrase : String
  headers : List (String × String)
  body : String
  deriving DecidableEq

/-- One parsed StructuredLogEntry: Request and Response are optional because
the code validates their presence (`!structuredLog.Request || !structuredLog.Response`). -/
structure LogFileEntry where
  requestId : String
  startTime : String
  durationMs : Nat
  request : Option RequestData
  response : Option ResponseData
  errors : List String
  hasResiliencePipeline : Bool
  deriving DecidableEq

/-- One line of the JSONL stream, as the first pass of
parseStructuredJsonRequests classifies it: `malformed` is a line on which
JSON.parse throws, `noEntry` is a parsed line without the nested
Properties.RequestLogFileEntry, `entry` carries the nested entry. -/
inductive JsonlLine where
  | malformed
  | noEntry
  | entry (e : LogFileEntry)
  deriving DecidableEq

/-- An entry that passed the validation of the first pass: both Request and
Response are present. -/
structure ValidEntry where
  requestId : String
  startTime : String
  durationMs : Nat
  request : RequestData
  response : ResponseData
  errors : List String
  hasResiliencePipeline : Bool
  deriving DecidableEq

/-- The skip tests of the first pass (lines 200-213 of StructuredJsonParser):
a malformed line, a line without the nested entry, and an entry missing
Request or Response all yield none and are skipped. -/
def validate : JsonlLine → Option ValidEntry
  | .malformed => none
  | .noEntry => none
  | .entry e =>
    match e.request, e.response with
    | some rq, some rs =>
      some { requestId := e.requestId, startTime := e.startTime,
             durationMs := e.durationMs, request := rq, response := rs,
             errors := e.errors, hasResiliencePipeline := e.hasResiliencePipeline }
    | _, _ => none

/-- One element of RetryInfo.attempts (retryAttempts construction,
lines 241-249 of StructuredJsonParser). -/
structure RetryAttempt where
  attemptNumber : Nat
  timestamp : String
  success : Bool
  statusCode : Nat
  statusText : String
  duration : String
  reason : String
  deriving DecidableEq

/-- RetryInfo as built by the ingestion (lines 271-276). -/
structure RetryInfo where
  strategyName : Option String
  actualAttempts : Nat
  wasRetried : Bool
  attempts : List RetryAttempt
  deriving DecidableEq

/-- InternalRequest as built by the second pass of the ingestion. -/
structure InternalRequest where
  method : String
  url : String
  requestHeaders : List (String × String)
  requestBody : Option String
  responseStatus : Nat
  responseStatusText : String
  responseHeaders : List (String × String)
  responseBody : Option String
  duration : String
  uniqueKey : String
  title : String
  name : String
  templateUrl : String
  errorMessage : Option String
  retryInfo : RetryInfo
  deriving DecidableEq

/-- Map with index, mirroring the JavaScript `array.map((x, index) => ...)`
pattern used by the sources. -/
def mapWithIndex {α β : Type} (f : Nat → α → β) : Nat → List α → List β
  | _, [] => []
  | i, a :: as => f i a :: mapWithIndex f (i + 1) as

/-- One retry attempt from one entry (lines 241-249): success is
`entry.Response?.StatusCode ? (code >= 200 && code < 300) : false`. -/
def mkRetryAttempt (index : Nat) (e : ValidEntry) : RetryAttempt :=
  { attemptNumber := index + 1
    timestamp := e.startTime
    success :=
      if e.response.statusCode != 0 then
        decide (200 ≤ e.response.statusCode) && decide (e.response.statusCode < 300)
      else false
    statusCode := e.response.statusCode
    statusText := e.response.reasonPhrase
    duration := toString e.durationMs ++ "ms"
    reason := if index == 0 then "Initial attempt" else "Retry" }

/-- Non-empty error strings across all entries of a group
(`allEntries.flatMap(entry => entry.Errors).filter(err => err)`, line 280). -/
def groupErrors (es : List ValidEntry) : List String :=
  (es.flatMap (fun e => e.errors)).filter (fun err => err != "")

/-- The second pass of parseStructuredJsonRequests for one group
(lines 238-288): static request fields from the first entry, response
fields from the last entry, one RetryAttempt per entry.  The group list is
never empty in the source (groups are created with one entry); the empty
case returns none. -/
def buildRequest : List ValidEntry → Option InternalRequest
  | [] => none
  | firstEntry :: rest =>
    let allEntries := firstEntry :: rest
    let entriesCount := allEntries.length
    let retryAttempts := mapWithIndex mkRetryAttempt 0 allEntries
    let lastEntry := allEntries.getLastD firstEntry
    let requestName := firstEntry.request.name
    let errors := groupErrors allEntries
    some {
      method := firstEntry.request.method
      url := firstEntry.request.uri
      requestHeaders := firstEntry.request.headers
      requestBody := firstEntry.request.body
      -- `lastEntry.Response?.StatusCode || 0` is the identity on Nat
      responseStatus := lastEntry.response.statusCode
      responseStatusText :=
        if lastEntry.response.reasonPhrase == "" then "No Response"
        else lastEntry.response.reasonPhrase
      responseHeaders := lastEntry.response.headers
      responseBody := some lastEntry.response.body
      duration := toString lastEntry.durationMs ++ "ms"
      uniqueKey := firstEntry.requestId
      title := requestName
      name := requestName
      templateUrl := firstEntry.request.uri
      errorMessage :=
        if errors.isEmpty then none else some (String.intercalate "; " errors)
      retryInfo := {
        strategyName :=
          if firstEntry.hasResiliencePipeline then some "Resilience Pipeline" else none
        actualAttempts := entriesCount
        wasRetried := decide (entriesCount > 1)
        attempts := retryAttempts } }

/-- Grouping map of the first pass: request name to its entries, in
insertion order, as a JS Map of arrays. -/
abbrev GroupMap := List (String × List ValidEntry)

/-- One step of the grouping (lines 217-227): append the entry to the array
of its name if present, otherwise add a new key at the end. -/
def insertEntry : GroupMap → String → ValidEntry → GroupMap
  | [], k, e => [(k, [e])]
  | (k', es) :: rest, k, e =>
    if k' == k then (k', es ++ [e]) :: rest
    else (k', es) :: insertEntry rest k e

/-- First pass of parseStructuredJsonRequests: group the valid entries by
request name in encounter order, skipping lines that fail validation. -/
def groupValid (lines : List JsonlLine) : GroupMap :=
  lines.foldl
    (fun m l =>
      match validate l with
      | some e => insertEntry m e.request.name e
      | none => m) []

/-- foundHttpRequest flag: set once any valid entry was seen (line 215). -/
def foundAnyRequest (lines : List JsonlLine) : Bool :=
  lines.any (fun l => (validate l).isSome)

/-- connectionError accumulation of the second pass (lines 281-286):
the first group, in map order, with a non-empty filtered error list
contributes its first error; later errors never overwrite it. -/
def computeConnectionError (groups : GroupMap) : Option String :=
  groups.foldl
    (fun ce g =>
      match ce with
      | some e => some e
      | none => (groupErrors g.2).head?) none

/-- Result record of the ingestion (CliParseResult in HttpRequestTypes.ts). -/
structure CliParseResult where
  requests : List InternalRequest
  connectionError : Option String
  foundHttpRequest : Bool
  deriving DecidableEq

/-- Input to the ingestion: the file is missing, or it has a list of
(already trimmed, non-blank) lines. An empty file yields an empty list. -/
inductive FileInput where
  | missing
  | content (lines : List JsonlLine)

def MISSING_FILE_ERROR : String :=
  "Structured requests file not found - TeaPie might not support --requests-log-file parameter"

def EMPTY_JSONL_ERROR : String := "Empty JSONL file"

/-- StructuredJsonParser.parseStructuredJsonRequests (lines 158-308):
soft failure on a missing or empty file, otherwise two passes over the
lines. -/
def parseStructuredJsonRequests : FileInput → CliParseResult
  | .missing =>
    { requests := [], connectionError := some MISSING_FILE_ERROR,
      foundHttpRequest := false }
  | .content lines =>
    if lines.isEmpty then
      { requests := [], connectionError := some EMPTY_JSONL_ERROR,
        foundHttpRequest := false }
    else
      let groups := groupValid lines
      { requests := groups.filterMap (fun g => buildRequest g.2)
        connectionError := computeConnectionError groups
        foundHttpRequest := foundAnyRequest lines }

/-! ## Output data model (HttpRequestTypes.ts) -/

/-- Source tag of a test case (HttpTestResult.Source). -/
inductive TestSource where
  | inline
  | csx
  deriving DecidableEq

/-- HttpTestResult of HttpRequestTypes.ts. Field names keep the source
casing. -/
structure HttpTestResult where
  Name : String
  Passed : Bool
  Message : Option String
  Source : Option TestSource
  deriving DecidableEq

/-- The Request block of an HttpRequestResult. -/
structure RequestDetails where
  Method : String
  Url : String
  TemplateUrl : Option String
  Headers : List (String × String)
  Body : Option String
  deriving DecidableEq

/-- The Response block of an HttpRequestResult. -/
structure ResponseDetails where
  StatusCode : Nat
  StatusText : String
  Headers : List (String × String)
  Body : Option String
  Duration : String
  deriving DecidableEq

/-- HttpRequestResult of HttpRequestTypes.ts. -/
structure HttpRequestResult where
  Name : String
  Status : String
  Duration : String
  Request : Option RequestDetails
  Response : Option ResponseDetails
  ErrorMessage : Option String
  Tests : Option (List HttpTestResult)
  RetryInfo : Option TeaPie.RetryInfo
  deriving DecidableEq

/-- HttpRequestGroup of HttpRequestTypes.ts. -/
structure HttpRequestGroup where
  Name : String
  FilePath : String
  Requests : List HttpRequestResult
  Status : String
  Duration : String
  deriving DecidableEq

/-- HttpRequestResults: the source wraps the group list in a
RequestGroups object; that one-field wrapper is collapsed here. -/
structure HttpRequestResults where
  RequestGroup : List HttpRequestGroup
  deriving DecidableEq

/-! ## Constants (constants/httpResults.ts) -/

def STATUS_PASSED : String := "Passed"
def STATUS_FAILED : String := "Failed"
def STATUS_TESTS_FAILED : String := "TestsFailed"
def ERROR_CONNECTION_REFUSED : String :=
  "Connection refused - please ensure the server is running and accessible"
def ERROR_HOST_NOT_FOUND : String :=
  "Host not found - please check the URL in your HTTP request"
def ERROR_TIMEOUT : String := "Request timed out - server may be unresponsive"
def ERROR_EXECUTION_FAILED : String := "HTTP request execution failed"
def ERROR_NO_HTTP_FOUND : String := "No HTTP requests were found in this file."

/-! ## String helpers

Character-list implementations of the JavaScript string operations the
sources use, kept kernel-reducible. -/

/-- Whether `p` is an initial run of `cs`. -/
def charsStartWith : List Char → List Char → Bool
  | [], _ => true
  | _ :: _, [] => false
  | p :: ps, c :: cs => p == c && charsStartWith ps cs

/-- Whether `pat` occurs inside `cs`: JavaScript String.includes. -/
def charsContain (pat : List Char) : List Char → Bool
  | [] => pat.isEmpty
  | c :: cs => charsStartWith pat (c :: cs) || charsContain pat cs

/-- JavaScript `s.includes(pat)`. -/
def strContainsSub (s pat : String) : Bool :=
  charsContain pat.toList s.toList

/-- The last path segment: node path.basename for simple
"dir/sub/name.ext" paths (no trailing separator). -/
def lastSegment (cs : List Char) : List Char :=
  cs.foldl (fun acc c => if c == '/' then [] else acc ++ [c]) []

/-- The suffix of `cs` starting at its last dot, or [] when there is no
dot. -/
def suffixFromLastDot (cs : List Char) : List Char :=
  cs.foldl
    (fun acc c =>
      if c == '.' then ['.']
      else if acc.isEmpty then [] else acc ++ [c]) []

/-- node path.extname on a basename: empty when the only dot is the
leading character. -/
def extnameChars (b : List Char) : List Char :=
  let e := suffixFromLastDot b
  if e.length == b.length then [] else e

/-- `path.basename(p, path.extname(p))`: the file name without directory
and extension, as the executor computes fileName. -/
def basenameNoExt (p : String) : String :=
  let b := lastSegment p.toList
  let e := extnameChars b
  String.mk (b.take (b.length - e.length))

/-- JavaScript `parseInt(s) || 0` on the strings this code feeds it:
the leading digit run, 0 when there is none. -/
def parseIntOrZero (s : String) : Nat :=
  (s.toList.takeWhile Char.isDigit).foldl
    (fun acc c => acc * 10 + (c.toNat - 48)) 0

/-- JavaScript `s.replace(pat, "")`: remove the first occurrence of
`pat`. -/
def removeFirst (s pat : String) : String :=
  match s.splitOn pat with
  | [] => s
  | x :: rest => x ++ String.intercalate pat rest

/-! ## Aggregation (TeaPieExecutor, unnamed/part_000) -/

/-- TeaPieExecutor.createFailedResult (lines 330-348). -/
def createFailedResult (filePath errorMessage : String) : HttpRequestResults :=
  let fileName := basenameNoExt filePath
  { RequestGroup := [{
      Name := fileName
      FilePath := filePath
      Requests := [{
        Name := "HTTP request execution failed"
        Status := STATUS_FAILED
        Duration := "0ms"
        Request := none
        Response := none
        ErrorMessage := some errorMessage
        Tests := none
        RetryInfo := none }]
      Status := STATUS_FAILED
      Duration := "0s" }] }

/-- TeaPieExecutor.mapConnectionError (lines 277-292). -/
def mapConnectionError (errorMessage : String) : String :=
  if strContainsSub errorMessage "Reason:" && strContainsSub errorMessage "Details:" then
    errorMessage
  else if strContainsSub errorMessage "ECONNREFUSED"
      || strContainsSub errorMessage "connection refused"
      || strContainsSub errorMessage "actively refused" then
    ERROR_CONNECTION_REFUSED ++ "\n\nDetailed error: " ++ errorMessage
  else if strContainsSub errorMessage "ENOTFOUND"
      || strContainsSub errorMessage "getaddrinfo" then
    ERROR_HOST_NOT_FOUND ++ "\n\nDetailed error: " ++ errorMessage
  else if strContainsSub errorMessage "timeout" then
    ERROR_TIMEOUT ++ "\n\nDetailed error: " ++ errorMessage
  else
    ERROR_EXECUTION_FAILED ++ "\n\nDetailed error: " ++ errorMessage

/-- The test lookup map produced by the XML side: request name (or the
reserved key) to attributed tests, a JS Map as association list. -/
abbrev TestMap := List (String × List HttpTestResult)

/-- JS Map.get. -/
def mapGet : TestMap → String → Option (List HttpTestResult)
  | [], _ => none
  | (k', v') :: rest, k => if k' == k then some v' else mapGet rest k

/-- JS Map.set: update in place, or append a new key at the end. -/
def mapSet : TestMap → String → List HttpTestResult → TestMap
  | [], k, v => [(k, v)]
  | (k', v') :: rest, k, v =>
    if k' == k then (k, v) :: rest else (k', v') :: mapSet rest k v

/-- The inline-test filter of the status derivation (line 212):
`t.Source === 'inline' || !t.Source`. -/
def isInlineTest (t : HttpTestResult) : Bool :=
  match t.Source with
  | some TestSource.inline => true
  | some TestSource.csx => false
  | none => true

/-- Status derivation of buildHttpRequestResults (lines 210-222):
httpSuccess is the truthiness-guarded range test, hasFailedInlineTests
requires a non-empty inline list with a failure. -/
def deriveRequestStatus (responseStatus : Nat)
    (requestTestResults : List HttpTestResult) : String :=
  let httpSuccess :=
    responseStatus != 0 && decide (200 ≤ responseStatus)
      && decide (responseStatus < 300)
  let inlineTests := requestTestResults.filter isInlineTest
  let hasFailedInlineTests :=
    !inlineTests.isEmpty && inlineTests.any (fun t => !t.Passed)
  if !httpSuccess then STATUS_FAILED
  else if hasFailedInlineTests then STATUS_TESTS_FAILED
  else STATUS_PASSED

/-- One merged per-request result (lines 205-245). -/
def buildRequestResult (testResultsFromXml : TestMap) (index : Nat)
    (request : InternalRequest) : HttpRequestResult :=
  let requestName :=
    if request.name == "" then "Request " ++ toString (index + 1) else request.name
  let requestTestResults := (mapGet testResultsFromXml requestName).getD []
  let status := deriveRequestStatus request.responseStatus requestTestResults
  { Name := requestName
    Status := status
    Duration := if request.duration == "" then "0ms" else request.duration
    Request := some {
      Method := request.method
      Url := request.url
      TemplateUrl := if request.templateUrl == "" then none else some request.templateUrl
      Headers := request.requestHeaders
      Body := request.requestBody }
    Response := some {
      StatusCode := request.responseStatus
      StatusText :=
        if request.responseStatusText == "" then "No Response"
        else request.responseStatusText
      Headers := request.responseHeaders
      Body := request.responseBody
      Duration := if request.duration == "" then "0ms" else request.duration }
    ErrorMessage := request.errorMessage
    Tests := if requestTestResults.isEmpty then none else some requestTestResults
    RetryInfo := some request.retryInfo }

/-- Group duration contribution of one request (lines 267-270):
`parseInt(r.Duration.replace('ms', '')) || 0`. -/
def durationMsOf (r : HttpRequestResult) : Nat :=
  parseIntOrZero (removeFirst r.Duration "ms")

/-- TeaPieExecutor.buildHttpRequestResults (lines 193-275): the
connection-error short circuit, the per-request merge, the custom CSX
pseudo-request, and the group status and duration. The group status
compares each Status against the uppercase literal "FAILED", exactly as
the source does. -/
def buildHttpRequestResults (fileName filePath : String)
    (structuredResult : CliParseResult)
    (testResultsFromXml : TestMap) : HttpRequestResults :=
  match structuredResult.connectionError with
  | some err => createFailedResult filePath err
  | none =>
    let requests :=
      mapWithIndex (buildRequestResult testResultsFromXml) 0 structuredResult.requests
    let requests :=
      match mapGet testResultsFromXml "_CUSTOM_CSX_TESTS" with
      | some customCsxTests =>
        if !customCsxTests.isEmpty then
          let allCustomTestsPassed := customCsxTests.all (fun t => t.Passed)
          requests ++ [{
            Name := "Custom CSX Tests"
            Status := if allCustomTestsPassed then "PASSED" else "FAILED"
            Duration := "0ms"
            Request := none
            Response := none
            ErrorMessage := none
            Tests := some customCsxTests
            RetryInfo := none }]
        else requests
      | none => requests
    { RequestGroup := [{
        Name := fileName
        FilePath := filePath
        Status := if requests.any (fun r => r.Status == "FAILED") then "FAILED" else "PASSED"
        Duration := toString (requests.foldl (fun total r => total + durationMsOf r) 0) ++ "ms"
        Requests := requests }] }

/-- TeaPieExecutor.parseOutput (lines 161-191), over already-materialized
parser outputs: the no-requests fallback, then the aggregation. -/
def parseOutput (filePath : String) (testResultsFromXml : TestMap)
    (structuredParseResult : CliParseResult) : HttpRequestResults :=
  let fileName := basenameNoExt filePath
  if structuredParseResult.requests.isEmpty && !structuredParseResult.foundHttpRequest then
    createFailedResult filePath "No HTTP requests found in structured JSON files"
  else
    buildHttpRequestResults fileName filePath structuredParseResult testResultsFromXml

/-! ## XML test report attribution (XmlTestParser.parseTestResultsFromXml)

The regex extraction is modelled at the structural level: a report is a
list of suites, each suite a name and a list of test cases, each case a
name and an optional failure message. -/

/-- One testcase element: failure carries the message attribute of a
nested failure element. -/
structure TestCase where
  name : String
  failure : Option String
  deriving DecidableEq

/-- One testsuite element. -/
structure TestSuite where
  name : String
  cases : List TestCase
  deriving DecidableEq

/-- HttpFileRequest of HttpRequestTypes.ts, the RequestDirectiveSource
answer: for each request of the source file, its names and its inline
test directive count. -/
structure HttpFileRequest where
  name : Option String
  title : Option String
  method : String
  url : String
  hasTestDirectives : Bool
  testDirectiveCount : Option Nat
  deriving DecidableEq

/-- Lines 85-92: every extracted case becomes an HttpTestResult, passed
unless a failure element matched, Source set to inline. -/
def toTestResult (tc : TestCase) : HttpTestResult :=
  { Name := tc.name
    Passed := tc.failure.isNone
    Message := tc.failure
    Source := some TestSource.inline }

/-- JavaScript `a || b` on optional strings: the first truthy value. -/
def orElseNonEmpty (o : Option String) (fallback : String) : String :=
  match o with
  | some s => if s == "" then fallback else s
  | none => fallback

/-- Line 116: `req.name || req.title || method url`. -/
def requestDisplayName (req : HttpFileRequest) : String :=
  orElseNonEmpty req.name (orElseNonEmpty req.title (req.method ++ " " ++ req.url))

/-- Whether a request enters the distribution loop (line 115):
`req.testDirectiveCount && req.testDirectiveCount > 0`. -/
def positiveCount (req : HttpFileRequest) : Bool :=
  match req.testDirectiveCount with
  | some c => decide (0 < c)
  | none => false

/-- Line 106: the expected number of inline tests,
`reduce((sum, req) => sum + (req.testDirectiveCount || 0), 0)`. -/
def totalInlineTests (rs : List HttpFileRequest) : Nat :=
  rs.foldl (fun sum req => sum + req.testDirectiveCount.getD 0) 0

/-- The distribution loop (lines 113-123): walk the requests in file
order; each request with a positive directive count takes the slice
`inlineTests.slice(testIndex, testIndex + count)` under its display name
(only set when non-empty) and advances testIndex by its count. -/
def distributeInline : TestMap → List HttpFileRequest → List HttpTestResult → Nat → TestMap
  | m, [], _, _ => m
  | m, req :: rest, inlineTests, testIndex =>
    match req.testDirectiveCount with
    | some c =>
      if 0 < c then
        let requestName := requestDisplayName req
        let requestTests := (inlineTests.drop testIndex).take c
        let m' := if requestTests.isEmpty then m else mapSet m requestName requestTests
        distributeInline m' rest inlineTests (testIndex + c)
      else distributeInline m rest inlineTests testIndex
    | none => distributeInline m rest inlineTests testIndex

/-- Read-modify-write on the reserved key, as the source does with
`[...(allTestsByRequest.get(k) || []), ...tests]`. -/
def appendAt (m : TestMap) (k : String) (v : List HttpTestResult) : TestMap :=
  mapSet m k ((mapGet m k).getD [] ++ v)

/-- The reserved global bucket key. -/
def CUSTOM_KEY : String := "_CUSTOM_CSX_TESTS"

/-- Processing of one suite (lines 65-145) over the pair of maps
(testResults, allTestsByRequest). A suite whose name includes the marker
feeds the bucket directly; otherwise, with directives, the cases are
split at totalInlineTests, the prefix distributed, the rest retagged csx
and appended to the bucket (the in-place retagging also shows in the
suite-name entry); without directives everything goes to the bucket. -/
def processSuite (httpFileRequests : List HttpFileRequest)
    (acc : TestMap × TestMap) (suite : TestSuite) : TestMap × TestMap :=
  let testResults := acc.1
  let allTestsByRequest := acc.2
  let allTests := suite.cases.map toTestResult
  if allTests.isEmpty then acc
  else if strContainsSub suite.name "Custom CSX Tests" then
    (testResults, appendAt allTestsByRequest CUSTOM_KEY allTests)
  else if httpFileRequests.any (fun r => r.hasTestDirectives) then
    let total := totalInlineTests httpFileRequests
    let inlineTests := allTests.take total
    let csxTests := allTests.drop total
    let m1 := distributeInline allTestsByRequest httpFileRequests inlineTests 0
    let csxTagged := csxTests.map (fun t => { t with Source := some TestSource.csx })
    let m2 := if csxTests.isEmpty then m1 else appendAt m1 CUSTOM_KEY csxTagged
    (mapSet testResults suite.name (inlineTests ++ csxTagged), m2)
  else
    (mapSet testResults suite.name allTests,
     appendAt allTestsByRequest CUSTOM_KEY allTests)

/-- XmlTestParser.parseTestResultsFromXml over the structural report:
fold the suites, then copy every allTestsByRequest entry over the
suite-name entries (lines 148-150). -/
def parseTestResultsFromXml (httpFileRequests : List HttpFileRequest)
    (suites : List TestSuite) : TestMap :=
  let acc := suites.foldl (processSuite httpFileRequests) ([], [])
  acc.2.foldl (fun m p => mapSet m p.1 p.2) acc.1

/-! ## Report stabilization wait (XmlTestParser.waitForXmlReportUpdate)

The polling loop is modelled over an observation trace: `stat k` is what
fs.stat reports at poll k (none when the file is missing and stat
throws). Fuel is the number of polls the timeout allows, maxWaitMs
divided by the 100ms poll interval; real durations and the 50ms settle
delay are not modelled. The return type has no error alternative: the
loop either observes an mtime past the baseline and returns the poll
index, or runs out of fuel and returns timedOut after the warning log. -/

inductive WaitOutcome where
  | updated (pollIndex : Nat)
  | timedOut
  deriving DecidableEq

/-- XmlTestParser.waitForXmlReportUpdate (lines 175-198). -/
def waitForXmlReportUpdate (stat : Nat → Option Nat) (beforeTimestamp : Nat) :
    Nat → Nat → WaitOutcome
  | _, 0 => .timedOut
  | k, fuel + 1 =>
    match stat k with
    | some currentTimestamp =>
      if beforeTimestamp < currentTimestamp then .updated k
      else waitForXmlReportUpdate stat beforeTimestamp (k + 1) fuel
    | none => waitForXmlReportUpdate stat beforeTimestamp (k + 1) fuel

/-! ## Concrete inputs used by the evaluations and witnesses -/

/-- The prefix-sum offset of request j inside the inline prefix: the sum
of the directive counts of the requests before it (testIndex when the
distribution loop reaches request j). -/
def offsetBefore (rs : List HttpFileRequest) (j : Nat) : Nat :=
  ((rs.take j).map (fun r => r.testDirectiveCount.getD 0)).sum

/-- A request that ended with HTTP status 500 and no errors. -/
def req500 : InternalRequest :=
  { method := "GET", url := "http://x", requestHeaders := [], requestBody := none,
    responseStatus := 500, responseStatusText := "Internal Server Error",
    responseHeaders := [], responseBody := none, duration := "5ms",
    uniqueKey := "r1", title := "Login", name := "Login",
    templateUrl := "http://x", errorMessage := none,
    retryInfo := { strategyName := none, actualAttempts := 1,
                   wasRetried := false, attempts := [] } }

/-- Ingestion outcome with one failed request and no connection error. -/
def pr500 : CliParseResult :=
  { requests := [req500], connectionError := none, foundHttpRequest := true }

/-- A passing inline-tagged test. -/
def tPassInline : HttpTestResult :=
  { Name := "ok", Passed := true, Message := none, Source := some TestSource.inline }

/-- A failing inline-tagged test. -/
def tFailInline : HttpTestResult :=
  { Name := "bad", Passed := false, Message := some "assertion failed",
    Source := some TestSource.inline }

/-- First request of the directive example, declaring 2 inline tests. -/
def reqA : HttpFileRequest :=
  { name := some "A", title := none, method := "GET", url := "u1",
    hasTestDirectives := true, testDirectiveCount := some 2 }

/-- Second request of the directive example, declaring 1 inline test. -/
def reqB : HttpFileRequest :=
  { name := some "B", title := none, method := "GET", url := "u2",
    hasTestDirectives := true, testDirectiveCount := some 1 }

/-- A passing test case named n. -/
def tcase (n : String) : TestCase := { name := n, failure := none }

/-- A suite with four passing cases, against directive counts [2, 1]. -/
def suiteFour : TestSuite :=
  { name := "My Suite", cases := [tcase "t1", tcase "t2", tcase "t3", tcase "t4"] }

/-- A suite whose name carries the Custom CSX Tests marker. -/
def csxSuite : TestSuite :=
  { name := "Custom CSX Tests - run", cases := [tcase "t1"] }

/-- A raw ECONNREFUSED-style error string as the attempt log reports it. -/
def econnMsg : String := "connect ECONNREFUSED 127.0.0.1:8080"

/-- A request whose final attempt succeeded. -/
def reqOk : InternalRequest :=
  { method := "GET", url := "http://x", requestHeaders := [], requestBody := none,
    responseStatus := 200, responseStatusText := "OK",
    responseHeaders := [], responseBody := none, duration := "3ms",
    uniqueKey := "r2", title := "Ping", name := "Ping",
    templateUrl := "http://x", errorMessage := none,
    retryInfo := { strategyName := none, actualAttempts := 1,
                   wasRetried := false, attempts := [] } }

/-- Ingestion outcome carrying a connection error next to a parsed
request. -/
def prConnRefused : CliParseResult :=
  { requests := [reqOk], connectionError := some econnMsg, foundHttpRequest := true }

/-- A log entry whose attempt returned 200 but whose Errors array holds a
non-empty string. -/
def entry200boom : LogFileEntry :=
  { requestId := "id1", startTime := "s", durationMs := 3,
    request := some { name := "R1", method := "GET", uri := "u", headers := [], body := none },
    response := some { statusCode := 200, reasonPhrase := "OK", headers := [], body := "b" },
    errors := ["boom"], hasResiliencePipeline := false }

/-- A one-line JSONL stream built from that entry. -/
def linesBoom : List JsonlLine := [.entry entry200boom]

/-- A first attempt that succeeded with 200. -/
def veOk : ValidEntry :=
  { requestId := "id1", startTime := "t1", durationMs := 10,
    request := { name := "R", method := "GET", uri := "u", headers := [], body := none },
    response := { statusCode := 200, reasonPhrase := "OK", headers := [], body := "b1" },
    errors := [], hasResiliencePipeline := false }

/-- A second attempt that failed with 500. -/
def veBad : ValidEntry :=
  { requestId := "id2", startTime := "t2", durationMs := 20,
    request := { name := "R", method := "GET", uri := "u", headers := [], body := none },
    response := { statusCode := 500, reasonPhrase := "Internal Server Error",
                  headers := [], body := "b2" },
    errors := [], hasResiliencePipeline := false }

/-- The first attempt of the chain [veOk, veBad] as a RetryAttempt. -/
def attemptOne : RetryAttempt :=
  { attemptNumber := 1, timestamp := "t1", success := true, statusCode := 200,
    statusText := "OK", duration := "10ms", reason := "Initial attempt" }

/-- The second attempt of the chain [veOk, veBad] as a RetryAttempt. -/
def attemptTwo : RetryAttempt :=
  { attemptNumber := 2, timestamp := "t2", success := false, statusCode := 500,
    statusText := "Internal Server Error", duration := "20ms", reason := "Retry" }

/-- RetryInfo of the chain [veOk, veBad]. -/
def retryOkBad : RetryInfo :=
  { strategyName := none, actualAttempts := 2, wasRetried := true,
    attempts := [attemptOne, attemptTwo] }

/-- The request the ingestion builds from the chain [veOk, veBad]: the
response comes from the failed last attempt, not the successful first
one. -/
def reqOkBad : InternalRequest :=
  { method := "GET", url := "u", requestHeaders := [], requestBody := none,
    responseStatus := 500, responseStatusText := "Internal Server Error",
    responseHeaders := [], responseBody := some "b2", duration := "20ms",
    uniqueKey := "id1", title := "R", name := "R", templateUrl := "u",
    errorMessage := none, retryInfo := retryOkBad }

/-- A stat trace for a file that never appears. -/
def statNever : Nat → Option Nat := fun _ => none

/-- A stat trace for a file whose mtime is 7 from the first poll on. -/
def statSeven : Nat → Option Nat := fun _ => some 7

/-! ## Helper lemmas -/

/-- The connection-error short circuit of buildHttpRequestResults
(lines 199-202). -/
theorem buildResults_connError (fileName filePath : String)
    (pr : CliParseResult) (xml : TestMap) (err : String)
    (h : pr.connectionError = some err) :
    buildHttpRequestResults fileName filePath pr xml = createFailedResult filePath err := by
  unfold buildHttpRequestResults
  rw [h]

/-- Once computeConnectionError has a value, later groups never change it. -/
theorem computeConnectionError_foldl_some (groups : GroupMap) (e : String) :
    groups.foldl
      (fun ce g =>
        match ce with
        | some x => some x
        | none => (groupErrors g.2).head?) (some e) = some e := by
  induction groups with
  | nil => rfl
  | cons g gs ih => simpa using ih

/-- computeConnectionError is the head of the concatenation of the
per-group error lists, in group order. -/
theorem computeConnectionError_eq (groups : GroupMap) :
    computeConnectionError groups
      = ((groups.map (fun g => groupErrors g.2)).flatten).head? := by
  induction groups with
  | nil => rfl
  | cons g gs ih =>
    simp only [computeConnectionError, List.foldl_cons, List.map_cons]
    cases hE : groupErrors g.2 with
    | nil =>
      simpa [computeConnectionError] using ih
    | cons a as =>
      simpa using computeConnectionError_foldl_some gs a

/-- mapGet after mapSet at the same key. -/
theorem mapGet_mapSet_self (m : TestMap) (k : String) (v : List HttpTestResult) :
    mapGet (mapSet m k v) k = some v := by
  induction m with
  | nil => simp [mapSet, mapGet]
  | cons p rest ih =>
    by_cases h : p.1 = k
    · simp [mapSet, mapGet, h]
    · simp [mapSet, mapGet, h, ih]

/-- mapGet after mapSet at a different key. -/
theorem mapGet_mapSet_ne (m : TestMap) (k k' : String) (v : List HttpTestResult)
    (h : k' ≠ k) :
    mapGet (mapSet m k v) k' = mapGet m k' := by
  have h2 : ¬ k = k' := fun hh => h hh.symm
  induction m with
  | nil => simp [mapSet, mapGet, h2]
  | cons p rest ih =>
    by_cases hp : p.1 = k
    · subst hp
      simp [mapSet, mapGet, h2]
    · by_cases hp' : p.1 = k'
      · simp [mapSet, mapGet, hp, hp', h, h2]
      · simp [mapSet, mapGet, hp, hp', ih]

/-- The truthiness-guarded range test of the source equals the plain
range test: status 0 is outside [200, 300) anyway. -/
theorem successFlag_eq_range (s : Nat) :
    (if s != 0 then decide (200 ≤ s) && decide (s < 300) else false)
      = decide (200 ≤ s ∧ s < 300) := by
  by_cases h : s = 0
  · subst h; decide
  · simp [h]

theorem mapWithIndex_length {α β : Type} (f : Nat → α → β) (k : Nat) (l : List α) :
    (mapWithIndex f k l).length = l.length := by
  induction l generalizing k with
  | nil => rfl
  | cons a as ih => simp [mapWithIndex, ih]

theorem mapWithIndex_getElem {α β : Type} (f : Nat → α → β) (k : Nat) (l : List α)
    (i : Nat) (hi : i < l.length) (h2 : i < (mapWithIndex f k l).length) :
    (mapWithIndex f k l)[i] = f (k + i) l[i] := by
  induction l generalizing k i with
  | nil => cases hi
  | cons a as ih =>
    cases i with
    | zero => simp [mapWithIndex]
    | succ j =>
      have hj : j < as.length := Nat.lt_of_succ_lt_succ hi
      have h2' : j < (mapWithIndex f (k + 1) as).length := by
        rw [mapWithIndex_length]; exact hj
      simp only [mapWithIndex, List.getElem_cons_succ]
      rw [ih (k + 1) j hj h2']
      congr 1
      omega

/-! ## Claims -/

/-- Claim C1. The claim states that the group aggregate status is Failed
when any member request has derived status Failed. The code compares each
member Status against the uppercase literal "FAILED" while the derived
member statuses are the mixed-case Passed, Failed and TestsFailed, so a
group whose only member has derived status Failed is reported PASSED.
This evaluation exhibits the failing input: one request with final HTTP
status 500, no tests and no connection error. -/
theorem c1_group_status_failing_eval :
    (buildHttpRequestResults "login" "login.http" pr500 []).RequestGroup.map
        (fun g => (g.Status, g.Requests.map (fun r => r.Status)))
      = [("PASSED", [STATUS_FAILED])] := by decide

/-- Claim C7. A missing or empty JSONL file makes the ingestion fail
softly: empty request list, descriptive connectionError, foundHttpRequest
false; parseOutput then returns the single-request synthetic no-requests
failed result, not an empty or ambiguous one. -/
theorem c7_soft_failure :
    (parseStructuredJsonRequests FileInput.missing).requests = [] ∧
    (parseStructuredJsonRequests FileInput.missing).connectionError = some MISSING_FILE_ERROR ∧
    (parseStructuredJsonRequests FileInput.missing).foundHttpRequest = false ∧
    (parseStructuredJsonRequests (FileInput.content [])).requests = [] ∧
    (parseStructuredJsonRequests (FileInput.content [])).connectionError = some EMPTY_JSONL_ERROR ∧
    (parseStructuredJsonRequests (FileInput.content [])).foundHttpRequest = false ∧
    parseOutput "dir/f.http" [] (parseStructuredJsonRequests FileInput.missing)
      = createFailedResult "dir/f.http" "No HTTP requests found in structured JSON files" ∧
    parseOutput "dir/f.http" [] (parseStructuredJsonRequests (FileInput.content []))
      = createFailedResult "dir/f.http" "No HTTP requests found in structured JSON files" ∧
    (createFailedResult "dir/f.http" "No HTTP requests found in structured JSON files").RequestGroup.map
        (fun g => (g.Status, g.Requests.map (fun r => (r.Name, r.Status, r.ErrorMessage))))
      = [(STATUS_FAILED,
          [("HTTP request execution failed", STATUS_FAILED,
            some "No HTTP requests found in structured JSON files")])] := by
  refine ⟨rfl, rfl, rfl, rfl, rfl, rfl, rfl, rfl, ?_⟩
  decide

/-- Claim C6, counterexample. The short circuit fires, but the failed
result carries the raw error string; the taxonomy mapping
(mapConnectionError) would have produced a different, ConnectionRefused
prefixed message, so it is not applied here. -/
theorem c6_counterexample :
    buildHttpRequestResults "login" "login.http" prConnRefused []
      = createFailedResult "login.http" econnMsg ∧
    (buildHttpRequestResults "login" "login.http" prConnRefused []).RequestGroup.map
        (fun g => g.Requests.map (fun r => r.ErrorMessage))
      = [[some econnMsg]] ∧
    mapConnectionError econnMsg ≠ econnMsg ∧
    strContainsSub (mapConnectionError econnMsg) "ECONNREFUSED" = true := by
  refine ⟨rfl, by decide, by decide, by decide⟩

/-- Claim C6, amended: for every ingestion result carrying a
connectionError, the aggregator short-circuits to the single-request
failed result carrying that error string verbatim; the error taxonomy
mapping is not applied on this path (mapConnectionError only handles CLI
execution failures in executeTeaPie). -/
theorem c6_amended_short_circuit (fileName filePath : String)
    (pr : CliParseResult) (xml : TestMap) (err : String)
    (h : pr.connectionError = some err) :
    buildHttpRequestResults fileName filePath pr xml = createFailedResult filePath err ∧
    (createFailedResult filePath err).RequestGroup.map
        (fun g => g.Requests.map (fun r => (r.Status, r.ErrorMessage)))
      = [[(STATUS_FAILED, some err)]] :=
  ⟨buildResults_connError fileName filePath pr xml err h, rfl⟩

/-- Witness for c6_amended_short_circuit at the concrete ECONNREFUSED
input. -/
theorem c6_amended_short_circuit_witness :
    buildHttpRequestResults "login" "login.http" prConnRefused []
      = createFailedResult "login.http" econnMsg ∧
    (createFailedResult "login.http" econnMsg).RequestGroup.map
        (fun g => g.Requests.map (fun r => (r.Status, r.ErrorMessage)))
      = [[(STATUS_FAILED, some econnMsg)]] :=
  c6_amended_short_circuit "login" "login.http" prConnRefused [] econnMsg rfl

/-- Claim C2. Ordered status precedence of the aggregation: a final
status outside [200, 300) gives Failed regardless of tests; inside the
range, a failing inline-tagged test gives TestsFailed; otherwise Passed. -/
theorem c2_status_precedence (s : Nat) (ts : List HttpTestResult) :
    (¬ (200 ≤ s ∧ s < 300) → deriveRequestStatus s ts = STATUS_FAILED) ∧
    ((200 ≤ s ∧ s < 300) → (∃ t ∈ ts, isInlineTest t = true ∧ t.Passed = false) →
      deriveRequestStatus s ts = STATUS_TESTS_FAILED) ∧
    ((200 ≤ s ∧ s < 300) → (∀ t ∈ ts, isInlineTest t = true → t.Passed = true) →
      deriveRequestStatus s ts = STATUS_PASSED) := by
  refine ⟨?_, ?_, ?_⟩
  · intro h
    have hs : (s != 0 && decide (200 ≤ s) && decide (s < 300)) = false := by
      by_cases h1 : 200 ≤ s
      · have h2 : ¬ s < 300 := fun hc => h ⟨h1, hc⟩
        simp [h2]
      · simp [h1]
    simp [deriveRequestStatus, hs]
  · intro hr hex
    obtain ⟨t, ht, hinl, hfail⟩ := hex
    have hs : (s != 0 && decide (200 ≤ s) && decide (s < 300)) = true := by
      have h0 : s ≠ 0 := by omega
      simp [h0, hr.1, hr.2]
    have hmem : t ∈ ts.filter isInlineTest := List.mem_filter.mpr ⟨ht, hinl⟩
    have hne : (ts.filter isInlineTest).isEmpty = false := by
      cases hE : ts.filter isInlineTest with
      | nil => rw [hE] at hmem; exact absurd hmem (List.not_mem_nil t)
      | cons a as => rfl
    have hany : (ts.filter isInlineTest).any (fun u => !u.Passed) = true :=
      List.any_eq_true.mpr ⟨t, hmem, by simp [hfail]⟩
    simp [deriveRequestStatus, hs, hne, hany]
  · intro hr hall
    have hs : (s != 0 && decide (200 ≤ s) && decide (s < 300)) = true := by
      have h0 : s ≠ 0 := by omega
      simp [h0, hr.1, hr.2]
    have hany : (ts.filter isInlineTest).any (fun u => !u.Passed) = false := by
      cases hA : (ts.filter isInlineTest).any (fun u => !u.Passed) with
      | false => rfl
      | true =>
        obtain ⟨t, hmem, hp⟩ := List.any_eq_true.mp hA
        obtain ⟨ht, hinl⟩ := List.mem_filter.mp hmem
        rw [hall t ht hinl] at hp
        exact absurd hp (by simp)
    simp [deriveRequestStatus, hs, hany]

/-- Witness for c2_status_precedence: status 500 with all inline tests
passing is Failed; status 200 with one failing inline test is
TestsFailed; status 200 with passing inline tests is Passed. -/
theorem c2_status_precedence_witness :
    deriveRequestStatus 500 [tPassInline] = STATUS_FAILED ∧
    deriveRequestStatus 200 [tFailInline] = STATUS_TESTS_FAILED ∧
    deriveRequestStatus 200 [tPassInline] = STATUS_PASSED :=
  ⟨(c2_status_precedence 500 [tPassInline]).1 (by decide),
   (c2_status_precedence 200 [tFailInline]).2.1 (by decide)
     ⟨tFailInline, by decide, by decide, by decide⟩,
   (c2_status_precedence 200 [tPassInline]).2.2 (by decide) (by decide)⟩

/-- Claim C9. The stabilization waiter never errors: its outcome type has
no failure alternative. A missing file (stat none) just advances to the
next poll, as does an unchanged mtime; an mtime past the baseline returns
updated at that poll; when no poll within the fuel budget observes an
mtime past the baseline, the loop returns timedOut instead of raising. -/
theorem c9_waiter_behavior (stat : Nat → Option Nat) (base : Nat) :
    (∀ k fuel, stat k = none →
      waitForXmlReportUpdate stat base k (fuel + 1)
        = waitForXmlReportUpdate stat base (k + 1) fuel) ∧
    (∀ k fuel t, stat k = some t → t ≤ base →
      waitForXmlReportUpdate stat base k (fuel + 1)
        = waitForXmlReportUpdate stat base (k + 1) fuel) ∧
    (∀ k fuel t, stat k = some t → base < t →
      waitForXmlReportUpdate stat base k (fuel + 1) = WaitOutcome.updated k) ∧
    (∀ k fuel, (∀ i, i < fuel → ∀ t, stat (k + i) = some t → t ≤ base) →
      waitForXmlReportUpdate stat base k fuel = WaitOutcome.timedOut) := by
  refine ⟨?_, ?_, ?_, ?_⟩
  · intro k fuel h
    simp [waitForXmlReportUpdate, h]
  · intro k fuel t h hle
    simp [waitForXmlReportUpdate, h, Nat.not_lt.mpr hle]
  · intro k fuel t h hlt
    simp [waitForXmlReportUpdate, h, hlt]
  · intro k fuel
    induction fuel generalizing k with
    | zero => intro _; rfl
    | succ n ih =>
      intro h
      have hstep : ∀ i, i < n → ∀ t, stat (k + 1 + i) = some t → t ≤ base := by
        intro i hi t hti
        refine h (i + 1) (by omega) t ?_
        rw [show k + (i + 1) = k + 1 + i by omega]
        exact hti
      cases hsk : stat k with
      | none =>
        rw [show waitForXmlReportUpdate stat base k (n + 1)
              = waitForXmlReportUpdate stat base (k + 1) n by
            simp [waitForXmlReportUpdate, hsk]]
        exact ih (k + 1) hstep
      | some t =>
        have hle : t ≤ base := h 0 (by omega) t (by simpa using hsk)
        rw [show waitForXmlReportUpdate stat base k (n + 1)
              = waitForXmlReportUpdate stat base (k + 1) n by
            simp [waitForXmlReportUpdate, hsk, Nat.not_lt.mpr hle]]
        exact ih (k + 1) hstep

/-- Witness for c9_waiter_behavior: a never-appearing file times out
after the fuel budget, a file already past the baseline resolves at
poll 0, and a missing file at poll 0 just continues. -/
theorem c9_waiter_behavior_witness :
    waitForXmlReportUpdate statNever 5 0 3 = WaitOutcome.timedOut ∧
    waitForXmlReportUpdate statSeven 5 0 3 = WaitOutcome.updated 0 ∧
    waitForXmlReportUpdate statNever 5 0 4 = waitForXmlReportUpdate statNever 5 1 3 :=
  ⟨(c9_waiter_behavior statNever 5).2.2.2 0 3
      (fun i _ t ht => by simp [statNever] at ht),
   (c9_waiter_behavior statSeven 5).2.2.1 0 2 7 rfl (by decide),
   (c9_waiter_behavior statNever 5).1 0 3 rfl⟩

/-- Claim C8. Per-line independence of the ingestion: malformed lines,
lines without the nested entry, and entries missing both Request and
Response fail validation and are skipped; removing such a line from
anywhere in the stream changes neither the grouping, nor the found flag,
nor (for a stream that stays non-empty) the whole ingestion result. -/
theorem c8_line_independence (xs ys : List JsonlLine) (b : JsonlLine)
    (hb : validate b = none) :
    validate JsonlLine.malformed = none ∧
    validate JsonlLine.noEntry = none ∧
    (∀ e : LogFileEntry, e.request = none → e.response = none →
      validate (JsonlLine.entry e) = none) ∧
    groupValid (xs ++ b :: ys) = groupValid (xs ++ ys) ∧
    foundAnyRequest (xs ++ b :: ys) = foundAnyRequest (xs ++ ys) ∧
    (xs ++ ys ≠ [] →
      parseStructuredJsonRequests (FileInput.content (xs ++ b :: ys))
        = parseStructuredJsonRequests (FileInput.content (xs ++ ys))) := by
  have hgroup : groupValid (xs ++ b :: ys) = groupValid (xs ++ ys) := by
    simp [groupValid, List.foldl_append, hb]
  have hfound : foundAnyRequest (xs ++ b :: ys) = foundAnyRequest (xs ++ ys) := by
    simp [foundAnyRequest, List.any_append, hb]
  refine ⟨rfl, rfl, ?_, hgroup, hfound, ?_⟩
  · intro e h1 h2
    simp [validate, h1]
  · intro hne
    have h1 : (xs ++ b :: ys).isEmpty = false := by
      cases hxy : xs ++ b :: ys with
      | nil => exact absurd hxy (by simp)
      | cons a l => rfl
    have h2 : (xs ++ ys).isEmpty = false := by
      cases hxy : xs ++ ys with
      | nil => exact absurd hxy hne
      | cons a l => rfl
    simp only [parseStructuredJsonRequests, h1, h2, hgroup, hfound]

/-- Witness for c8_line_independence at a concrete stream: a malformed
line between two valid entries is skipped without affecting either. -/
theorem c8_line_independence_witness :
    groupValid ([JsonlLine.entry entry200boom] ++ JsonlLine.malformed :: [JsonlLine.entry entry200boom])
      = groupValid ([JsonlLine.entry entry200boom] ++ [JsonlLine.entry entry200boom]) ∧
    parseStructuredJsonRequests
        (FileInput.content ([JsonlLine.entry entry200boom] ++ JsonlLine.malformed :: [JsonlLine.entry entry200boom]))
      = parseStructuredJsonRequests
        (FileInput.content ([JsonlLine.entry entry200boom] ++ [JsonlLine.entry entry200boom])) :=
  ⟨(c8_line_independence [JsonlLine.entry entry200boom] [JsonlLine.entry entry200boom]
      JsonlLine.malformed rfl).2.2.2.1,
   (c8_line_independence [JsonlLine.entry entry200boom] [JsonlLine.entry entry200boom]
      JsonlLine.malformed rfl).2.2.2.2.2 (by decide)⟩

/-- Claim C10 (implicit). connectionError is the head of the
concatenated per-group error lists in group order (the first non-empty
error string encountered by the second pass); whenever it is set the
aggregation discards every parsed request in favour of the single failed
result; concretely, one entry whose attempt returned 200 but whose
Errors hold "boom" makes the whole run the single failed result even
though every final attempt was 2xx. -/
theorem c10_first_error_discards :
    (∀ groups : GroupMap,
      computeConnectionError groups
        = ((groups.map (fun g => groupErrors g.2)).flatten).head?) ∧
    (∀ (fileName filePath : String) (pr : CliParseResult) (xml : TestMap) (err : String),
      pr.connectionError = some err →
      buildHttpRequestResults fileName filePath pr xml = createFailedResult filePath err) ∧
    (parseStructuredJsonRequests (FileInput.content linesBoom)).connectionError = some "boom" ∧
    (parseStructuredJsonRequests (FileInput.content linesBoom)).requests.map
        (fun r => (r.responseStatus, r.errorMessage)) = [(200, some "boom")] ∧
    buildHttpRequestResults "f" "f.http"
        (parseStructuredJsonRequests (FileInput.content linesBoom)) []
      = createFailedResult "f.http" "boom" := by
  refine ⟨computeConnectionError_eq, ?_, by decide, by decide, by decide⟩
  intro fn fp pr xml err h
  exact buildResults_connError fn fp pr xml err h

/-- Witness for c10_first_error_discards at a concrete ingestion result
with a connection error. -/
theorem c10_first_error_discards_witness :
    buildHttpRequestResults "g" "g.http" prConnRefused []
      = createFailedResult "g.http" econnMsg :=
  (c10_first_error_discards).2.1 "g" "g.http" prConnRefused [] econnMsg rfl

/-- Claim C3. For a retry chain of N entries sharing a request name, the
built request has actualAttempts = N, wasRetried iff N > 1, attempts
numbered 1..N in encounter order with per-attempt success iff the status
is in [200, 300), and its response fields (status, text, headers, body,
duration) taken from the last entry of the chain. -/
theorem c3_retry_chain (firstEntry : ValidEntry) (rest : List ValidEntry)
    (r : InternalRequest) (h : buildRequest (firstEntry :: rest) = some r) :
    r.retryInfo.actualAttempts = (firstEntry :: rest).length ∧
    r.retryInfo.wasRetried = decide (1 < (firstEntry :: rest).length) ∧
    r.retryInfo.attempts.length = (firstEntry :: rest).length ∧
    (∀ i, (hi : i < (firstEntry :: rest).length) →
      (ha : i < r.retryInfo.attempts.length) →
      (r.retryInfo.attempts.get ⟨i, ha⟩).attemptNumber = i + 1 ∧
      (r.retryInfo.attempts.get ⟨i, ha⟩).timestamp
        = ((firstEntry :: rest).get ⟨i, hi⟩).startTime ∧
      (r.retryInfo.attempts.get ⟨i, ha⟩).statusCode
        = ((firstEntry :: rest).get ⟨i, hi⟩).response.statusCode ∧
      (r.retryInfo.attempts.get ⟨i, ha⟩).success
        = decide (200 ≤ ((firstEntry :: rest).get ⟨i, hi⟩).response.statusCode ∧
                  ((firstEntry :: rest).get ⟨i, hi⟩).response.statusCode < 300)) ∧
    r.responseStatus = ((firstEntry :: rest).getLastD firstEntry).response.statusCode ∧
    r.responseHeaders = ((firstEntry :: rest).getLastD firstEntry).response.headers ∧
    r.responseBody = some ((firstEntry :: rest).getLastD firstEntry).response.body ∧
    r.duration = toString ((firstEntry :: rest).getLastD firstEntry).durationMs ++ "ms" ∧
    (((firstEntry :: rest).getLastD firstEntry).response.reasonPhrase ≠ "" →
      r.responseStatusText
        = ((firstEntry :: rest).getLastD firstEntry).response.reasonPhrase) := by
  simp only [buildRequest, Option.some.injEq] at h
  subst h
  refine ⟨rfl, rfl, mapWithIndex_length _ 0 _, ?_, rfl, rfl, rfl, rfl, ?_⟩
  · intro i hi ha
    have hmain : (mapWithIndex mkRetryAttempt 0 (firstEntry :: rest)).get ⟨i, ha⟩
        = mkRetryAttempt i ((firstEntry :: rest).get ⟨i, hi⟩) := by
      rw [List.get_eq_getElem, List.get_eq_getElem]
      rw [mapWithIndex_getElem mkRetryAttempt 0 (firstEntry :: rest) i hi ha]
      rw [Nat.zero_add]
    refine ⟨?_, ?_, ?_, ?_⟩ <;> rw [hmain]
    · rfl
    · rfl
    · rfl
    · exact successFlag_eq_range _
  · intro hrp
    have hf : (((firstEntry :: rest).getLastD firstEntry).response.reasonPhrase == "")
        = false := by
      simpa using hrp
    rw [hf]
    rfl

/-- Witness for c3_retry_chain on the chain [veOk, veBad]: two attempts,
retried, and the 500 of the failed last attempt wins over the successful
first one. -/
theorem c3_retry_chain_witness :
    reqOkBad.retryInfo.actualAttempts = 2 ∧
    reqOkBad.retryInfo.wasRetried = true ∧
    reqOkBad.responseStatus = 500 ∧
    reqOkBad.responseBody = some "b2" := by
  have h : buildRequest (veOk :: [veBad]) = some reqOkBad := by decide
  have hc := c3_retry_chain veOk [veBad] reqOkBad h
  exact ⟨hc.1, hc.2.1, hc.2.2.2.2.1, hc.2.2.2.2.2.2.1⟩

/-- The distribution loop leaves keys alone that no positive-count
request of the remaining list claims. -/
theorem distribute_preserve (rs : List HttpFileRequest) (its : List HttpTestResult) :
    ∀ (m : TestMap) (tIdx : Nat) (k : String),
    (∀ r ∈ rs, positiveCount r = true → requestDisplayName r ≠ k) →
    mapGet (distributeInline m rs its tIdx) k = mapGet m k := by
  induction rs with
  | nil => intro m tIdx k _; rfl
  | cons r rest ih =>
    intro m tIdx k h
    have hrest : ∀ r' ∈ rest, positiveCount r' = true → requestDisplayName r' ≠ k :=
      fun r' hr' => h r' (List.mem_cons_of_mem r hr')
    cases hc : r.testDirectiveCount with
    | none =>
      simp only [distributeInline, hc]
      exact ih m tIdx k hrest
    | some c =>
      by_cases hcp : 0 < c
      · have hpos : positiveCount r = true := by simp [positiveCount, hc, hcp]
        have hname : requestDisplayName r ≠ k := h r (List.mem_cons_self r rest) hpos
        simp only [distributeInline, hc, if_pos hcp]
        by_cases he : ((its.drop tIdx).take c).isEmpty
        · simp only [if_pos he]
          exact ih m (tIdx + c) k hrest
        · simp only [if_neg he]
          rw [ih _ (tIdx + c) k hrest]
          exact mapGet_mapSet_ne m (requestDisplayName r) k _ (Ne.symm hname)
      · simp only [distributeInline, hc, if_neg hcp]
        exact ih m tIdx k hrest

/-- Every entry the distribution loop writes is a contiguous slice of
the inline prefix it distributes. -/
theorem distribute_cases (rs : List HttpFileRequest) (its : List HttpTestResult) :
    ∀ (m : TestMap) (tIdx : Nat) (k : String),
    mapGet (distributeInline m rs its tIdx) k = mapGet m k ∨
    ∃ a b, mapGet (distributeInline m rs its tIdx) k = some ((its.drop a).take b) := by
  induction rs with
  | nil => intro m tIdx k; exact Or.inl rfl
  | cons r rest ih =>
    intro m tIdx k
    cases hc : r.testDirectiveCount with
    | none =>
      simp only [distributeInline, hc]
      exact ih m tIdx k
    | some c =>
      by_cases hcp : 0 < c
      · simp only [distributeInline, hc, if_pos hcp]
        by_cases he : ((its.drop tIdx).take c).isEmpty
        · simp only [if_pos he]
          exact ih m (tIdx + c) k
        · simp only [if_neg he]
          rcases ih (mapSet m (requestDisplayName r) ((its.drop tIdx).take c)) (tIdx + c) k with hset | hslice
          · rw [hset]
            by_cases hk : k = requestDisplayName r
            · subst hk
              exact Or.inr ⟨tIdx, c, mapGet_mapSet_self m _ _⟩
            · exact Or.inl (by rw [mapGet_mapSet_ne m _ k _ hk])
          · exact Or.inr hslice
      · simp only [distributeInline, hc, if_neg hcp]
        exact ih m tIdx k

/-- The distribution loop assigns request j (with directive count c > 0)
exactly the slice of length c starting at testIndex plus the counts of
the requests before it, provided the display names of the positive-count
requests do not repeat and the slice is non-empty. -/
theorem distribute_spec (rs : List HttpFileRequest) (its : List HttpTestResult) :
    ∀ (m : TestMap) (tIdx : Nat) (j : Nat) (hj : j < rs.length) (c : Nat),
    (rs.get ⟨j, hj⟩).testDirectiveCount = some c → 0 < c →
    ((its.drop (tIdx + offsetBefore rs j)).take c) ≠ [] →
    ((rs.filter positiveCount).map requestDisplayName).Nodup →
    mapGet (distributeInline m rs its tIdx) (requestDisplayName (rs.get ⟨j, hj⟩))
      = some ((its.drop (tIdx + offsetBefore rs j)).take c) := by
  induction rs with
  | nil => intro m tIdx j hj; exact absurd hj (Nat.not_lt_zero j)
  | cons r rest ih =>
    intro m tIdx j hj c hc hcp hne hnd
    cases j with
    | zero =>
      have hget0 : (r :: rest).get ⟨0, hj⟩ = r := rfl
      rw [hget0] at hc ⊢
      have hc0 : r.testDirectiveCount = some c := hc
      have hoff : offsetBefore (r :: rest) 0 = 0 := rfl
      rw [hoff, Nat.add_zero] at hne ⊢
      have hpos : positiveCount r = true := by simp [positiveCount, hc0, hcp]
      have hfil : (r :: rest).filter positiveCount = r :: rest.filter positiveCount := by
        simp [List.filter_cons, hpos]
      rw [hfil, List.map_cons, List.nodup_cons] at hnd
      have hnotin : ∀ r' ∈ rest, positiveCount r' = true →
          requestDisplayName r' ≠ requestDisplayName r := by
        intro r' hr' hp' hh
        exact hnd.1 (hh ▸ List.mem_map_of_mem requestDisplayName
          (List.mem_filter.mpr ⟨hr', hp'⟩))
      have hemp : ((its.drop tIdx).take c).isEmpty = false := by
        cases hE : (its.drop tIdx).take c with
        | nil => exact absurd hE hne
        | cons a l => rfl
      simp only [distributeInline, hc0, if_pos hcp, hemp, Bool.false_eq_true, if_neg,
        ite_false]
      rw [distribute_preserve rest its _ (tIdx + c) _ hnotin]
      exact mapGet_mapSet_self m _ _
    | succ j' =>
      have hj' : j' < rest.length := Nat.lt_of_succ_lt_succ hj
      have hget : (r :: rest).get ⟨j' + 1, hj⟩ = rest.get ⟨j', hj'⟩ := rfl
      have hoff : offsetBefore (r :: rest) (j' + 1)
          = r.testDirectiveCount.getD 0 + offsetBefore rest j' := by
        simp [offsetBefore, List.take_succ_cons]
      rw [hget] at hc ⊢
      rw [hoff] at hne ⊢
      cases hc0 : r.testDirectiveCount with
      | none =>
        have hfil : (r :: rest).filter positiveCount = rest.filter positiveCount := by
          simp [List.filter_cons, positiveCount, hc0]
        rw [hfil] at hnd
        rw [hc0] at hne
        simp only [Option.getD_none, Nat.zero_add] at hne
        try simp only [Option.getD_none, Nat.zero_add]
        simp only [distributeInline, hc0]
        exact ih m tIdx j' hj' c hc hcp hne hnd
      | some c0 =>
        by_cases hcp0 : 0 < c0
        · have hpos : positiveCount r = true := by simp [positiveCount, hc0, hcp0]
          have hfil : (r :: rest).filter positiveCount = r :: rest.filter positiveCount := by
            simp [List.filter_cons, hpos]
          rw [hfil, List.map_cons, List.nodup_cons] at hnd
          rw [hc0] at hne
          simp only [Option.getD_some] at hne
          rw [← Nat.add_assoc] at hne
          try simp only [Option.getD_some]
          rw [← Nat.add_assoc]
          simp only [distributeInline, hc0, if_pos hcp0]
          by_cases he : ((its.drop tIdx).take c0).isEmpty
          · simp only [if_pos he]
            exact ih m (tIdx + c0) j' hj' c hc hcp hne hnd.2
          · simp only [if_neg he]
            exact ih _ (tIdx + c0) j' hj' c hc hcp hne hnd.2
        · have hc00 : c0 = 0 := by omega
          have hfil : (r :: rest).filter positiveCount = rest.filter positiveCount := by
            simp [List.filter_cons, positiveCount, hc0, hc00]
          rw [hfil] at hnd
          rw [hc0] at hne
          simp only [Option.getD_some, hc00, Nat.zero_add] at hne
          try simp only [Option.getD_some, hc00, Nat.zero_add]
          simp only [distributeInline, hc0, if_neg hcp0]
          exact ih m tIdx j' hj' c hc hcp hne hnd

/-- Claim C4. For a non-marker suite processed against requests of which
at least one declares test directives, the cases are partitioned by
position: request j (directive count c > 0, display names of the
positive-count requests distinct and different from the reserved key)
receives the contiguous slice of length c at its prefix-sum offset inside
the first totalInlineTests cases, and every case after that prefix is
retagged csx and lands in the reserved global bucket; concretely, with
directive counts [2, 1] and four cases, request A gets cases 1-2,
request B case 3, and case 4 is reclassified csx. -/
theorem c4_positional_partition :
    (∀ (rs : List HttpFileRequest) (suite : TestSuite)
      (j : Nat) (hj : j < rs.length) (c : Nat),
      strContainsSub suite.name "Custom CSX Tests" = false →
      rs.any (fun r => r.hasTestDirectives) = true →
      ((rs.filter positiveCount).map requestDisplayName).Nodup →
      (∀ r ∈ rs, positiveCount r = true → requestDisplayName r ≠ CUSTOM_KEY) →
      (rs.get ⟨j, hj⟩).testDirectiveCount = some c → 0 < c →
      ((((suite.cases.map toTestResult).take (totalInlineTests rs)).drop
          (offsetBefore rs j)).take c) ≠ [] →
      mapGet (processSuite rs ([], []) suite).2 (requestDisplayName (rs.get ⟨j, hj⟩))
        = some ((((suite.cases.map toTestResult).take (totalInlineTests rs)).drop
            (offsetBefore rs j)).take c)) ∧
    (∀ (rs : List HttpFileRequest) (suite : TestSuite),
      strContainsSub suite.name "Custom CSX Tests" = false →
      rs.any (fun r => r.hasTestDirectives) = true →
      (∀ r ∈ rs, positiveCount r = true → requestDisplayName r ≠ CUSTOM_KEY) →
      ((suite.cases.map toTestResult).drop (totalInlineTests rs)) ≠ [] →
      mapGet (processSuite rs ([], []) suite).2 CUSTOM_KEY
        = some (((suite.cases.map toTestResult).drop (totalInlineTests rs)).map
            (fun t => { t with Source := some TestSource.csx }))) ∧
    (mapGet (parseTestResultsFromXml [reqA, reqB] [suiteFour]) "A"
      = some [toTestResult (tcase "t1"), toTestResult (tcase "t2")] ∧
    mapGet (parseTestResultsFromXml [reqA, reqB] [suiteFour]) "B"
      = some [toTestResult (tcase "t3")] ∧
    mapGet (parseTestResultsFromXml [reqA, reqB] [suiteFour]) CUSTOM_KEY
      = some [{ Name := "t4", Passed := true, Message := none,
                Source := some TestSource.csx }]) := by
  refine ⟨?_, ?_, by decide, by decide, by decide⟩
  · intro rs suite j hj c hmark hdir hnd hkey hc hcp hne
    have hAT : (suite.cases.map toTestResult).isEmpty = false := by
      cases hE : suite.cases.map toTestResult with
      | nil => rw [hE] at hne; simp at hne
      | cons a l => rfl
    have hname : requestDisplayName (rs.get ⟨j, hj⟩) ≠ CUSTOM_KEY := by
      refine hkey (rs.get ⟨j, hj⟩) (rs.get_mem _ _) ?_
      have hc2 : rs[j].testDirectiveCount = some c := hc
      simp [positiveCount, hc2, hcp]
    have hslice :
        mapGet (distributeInline ([] : TestMap) rs
            ((suite.cases.map toTestResult).take (totalInlineTests rs)) 0)
          (requestDisplayName (rs.get ⟨j, hj⟩))
        = some ((((suite.cases.map toTestResult).take (totalInlineTests rs)).drop
            (offsetBefore rs j)).take c) := by
      have := distribute_spec rs
        ((suite.cases.map toTestResult).take (totalInlineTests rs))
        [] 0 j hj c hc hcp (by rw [Nat.zero_add]; exact hne) hnd
      rw [Nat.zero_add] at this
      exact this
    simp only [processSuite, hAT, hmark, hdir, Bool.false_eq_true, ite_false, ite_true]
    by_cases hcsx : ((suite.cases.map toTestResult).drop (totalInlineTests rs)).isEmpty
    · simp only [hcsx, ite_true]
      exact hslice
    · simp only [hcsx, Bool.false_eq_true, ite_false]
      rw [appendAt, mapGet_mapSet_ne _ _ _ _ hname]
      exact hslice
  · intro rs suite hmark hdir hkey hne
    have hAT : (suite.cases.map toTestResult).isEmpty = false := by
      cases hE : suite.cases.map toTestResult with
      | nil => rw [hE] at hne; simp at hne
      | cons a l => rfl
    have hm1 : mapGet (distributeInline ([] : TestMap) rs
        ((suite.cases.map toTestResult).take (totalInlineTests rs)) 0) CUSTOM_KEY
        = none := by
      rw [distribute_preserve rs _ _ _ _ hkey]
      rfl
    have hcsx : ((suite.cases.map toTestResult).drop (totalInlineTests rs)).isEmpty
        = false := by
      cases hE : (suite.cases.map toTestResult).drop (totalInlineTests rs) with
      | nil => exact absurd hE hne
      | cons a l => rfl
    simp only [processSuite, hAT, hmark, hdir, hcsx, Bool.false_eq_true, ite_false,
      ite_true]
    rw [appendAt, hm1]
    simp only [Option.getD_none, List.nil_append]
    exact mapGet_mapSet_self _ _ _

/-- Witness for c4_positional_partition: the general slice statement
applied at request index 0 of the [2, 1] example. -/
theorem c4_positional_partition_witness :
    mapGet (processSuite [reqA, reqB] ([], []) suiteFour).2
        (requestDisplayName ([reqA, reqB].get ⟨0, by decide⟩))
      = some ((((suiteFour.cases.map toTestResult).take
          (totalInlineTests [reqA, reqB])).drop
            (offsetBefore [reqA, reqB] 0)).take 2) :=
  c4_positional_partition.1 [reqA, reqB] suiteFour 0 (by decide) 2
    (by decide) (by decide) (by decide) (by decide) rfl (by decide) (by decide)

/-- Claim C5, counterexample. A suite carrying the Custom CSX Tests
marker contributes its cases to the global bucket with their parse-time
tag inline - not csx as the claim states. -/
theorem c5_counterexample :
    mapGet (parseTestResultsFromXml [] [csxSuite]) CUSTOM_KEY
      = some [{ Name := "t1", Passed := true, Message := none,
                Source := some TestSource.inline }] ∧
    some TestSource.inline ≠ some TestSource.csx := by decide

/-- Claim C5, amended. Every extracted case is tagged inline at parse
time; a marker suite and the no-directive fallback move their cases to
the global bucket verbatim, keeping the inline tag; only the
positional-overflow path retags the moved tests csx; and every test kept
under a request-name key by the distribution carries the inline tag. -/
theorem c5_amended_tagging :
    (∀ c : TestCase, (toTestResult c).Source = some TestSource.inline) ∧
    (∀ (rs : List HttpFileRequest) (acc : TestMap × TestMap) (suite : TestSuite),
      suite.cases ≠ [] →
      strContainsSub suite.name "Custom CSX Tests" = true →
      (processSuite rs acc suite).2
        = appendAt acc.2 CUSTOM_KEY (suite.cases.map toTestResult)) ∧
    (∀ (rs : List HttpFileRequest) (acc : TestMap × TestMap) (suite : TestSuite),
      suite.cases ≠ [] →
      strContainsSub suite.name "Custom CSX Tests" = false →
      rs.any (fun r => r.hasTestDirectives) = false →
      (processSuite rs acc suite).2
        = appendAt acc.2 CUSTOM_KEY (suite.cases.map toTestResult)) ∧
    (∀ (ts : List HttpTestResult) (t : HttpTestResult),
      t ∈ ts.map (fun u => { u with Source := some TestSource.csx }) →
      t.Source = some TestSource.csx) ∧
    (∀ (rs : List HttpFileRequest) (suite : TestSuite) (k : String)
      (v : List HttpTestResult),
      strContainsSub suite.name "Custom CSX Tests" = false →
      rs.any (fun r => r.hasTestDirectives) = true →
      k ≠ CUSTOM_KEY →
      mapGet (processSuite rs ([], []) suite).2 k = some v →
      ∀ t ∈ v, t.Source = some TestSource.inline) := by
  refine ⟨fun _ => rfl, ?_, ?_, ?_, ?_⟩
  · intro rs acc suite hne hmark
    have hAT : (suite.cases.map toTestResult).isEmpty = false := by
      cases hE : suite.cases with
      | nil => exact absurd hE hne
      | cons a l => rfl
    simp [processSuite, hAT, hmark]
  · intro rs acc suite hne hmark hdir
    have hAT : (suite.cases.map toTestResult).isEmpty = false := by
      cases hE : suite.cases with
      | nil => exact absurd hE hne
      | cons a l => rfl
    simp [processSuite, hAT, hmark, hdir]
  · intro ts t ht
    obtain ⟨u, _, rfl⟩ := List.mem_map.mp ht
    rfl
  · intro rs suite k v hmark hdir hk hget t htv
    by_cases hAT : (suite.cases.map toTestResult).isEmpty
    · simp only [processSuite, hAT, ite_true] at hget
      exact absurd hget (by simp [mapGet])
    · have hAT' : (suite.cases.map toTestResult).isEmpty = false := by
        simpa using hAT
      simp only [processSuite, hAT', hmark, hdir, Bool.false_eq_true, ite_false,
        ite_true] at hget
      have hget1 : mapGet (distributeInline ([] : TestMap) rs
          ((suite.cases.map toTestResult).take (totalInlineTests rs)) 0) k
          = some v := by
        by_cases hcsx : ((suite.cases.map toTestResult).drop (totalInlineTests rs)).isEmpty
        · simpa [hcsx] using hget
        · have hcsx' : ((suite.cases.map toTestResult).drop (totalInlineTests rs)).isEmpty
              = false := by simpa using hcsx
          simp only [hcsx', Bool.false_eq_true, ite_false] at hget
          rw [appendAt, mapGet_mapSet_ne _ _ _ _ hk] at hget
          exact hget
      rcases distribute_cases rs
        ((suite.cases.map toTestResult).take (totalInlineTests rs)) [] 0 k with
        hcase | ⟨a, b, hcase⟩
      · rw [hget1] at hcase
        simp [mapGet] at hcase
      · rw [hget1] at hcase
        have hv := Option.some.inj hcase
        subst hv
        have ht1 : t ∈ suite.cases.map toTestResult :=
          List.take_subset _ _ (List.drop_subset _ _ (List.take_subset _ _ htv))
        obtain ⟨u, _, rfl⟩ := List.mem_map.mp ht1
        rfl

/-- Witness for c5_amended_tagging: the marker-suite clause applied to
the concrete Custom CSX Tests suite, and the parse-time tag clause at a
concrete case. -/
theorem c5_amended_tagging_witness :
    (processSuite [] (([] : TestMap), ([] : TestMap)) csxSuite).2
      = appendAt ([] : TestMap) CUSTOM_KEY (csxSuite.cases.map toTestResult) ∧
    (toTestResult (tcase "x")).Source = some TestSource.inline :=
  ⟨c5_amended_tagging.2.1 [] (([] : TestMap), ([] : TestMap)) csxSuite
      (by decide) (by decide),
   c5_amended_tagging.1 (tcase "x")⟩

end TeaPie
